import Mathlib

/-!
Verification development for the Contextable MCP artifact versioning and
chunked-content storage engine.

The definitions below are a shallow embedding of the TypeScript source:
content strings are modelled as lists of UTF-16-style characters
(List Char), machine numbers as Nat with explicit modular reduction where
the source wraps, fallible operations as Except, and the two relational
backends (SQLite and Supabase) as explicit table states (lists of rows)
with the storage methods as state-passing functions.  Nondeterministic
inputs of the source (generateId, now) are passed as explicit arguments.
-/

set_option maxRecDepth 40000

namespace Contextable

/-! ## MD5 (node:crypto createHash on utf-8 input, hex digest) -/

/-- Standard MD5 per-round constant table (floor(abs(sin(i+1)) * 2^32)). -/
def MD5_K : List Nat :=
  [3614090360, 3905402710, 606105819, 3250441966, 4118548399, 1200080426,
   2821735955, 4249261313, 1770035416, 2336552879, 4294925233, 2304563134,
   1804603682, 4254626195, 2792965006, 1236535329, 4129170786, 3225465664,
   643717713, 3921069994, 3593408605, 38016083, 3634488961, 3889429448,
   568446438, 3275163606, 4107603335, 1163531501, 2850285829, 4243563512,
   1735328473, 2368359562, 4294588738, 2272392833, 1839030562, 4259657740,
   2763975236, 1272893353, 4139469664, 3200236656, 681279174, 3936430074,
   3572445317, 76029189, 3654602809, 3873151461, 530742520, 3299628645,
   4096336452, 1126891415, 2878612391, 4237533241, 1700485571, 2399980690,
   4293915773, 2240044497, 1873313359, 4264355552, 2734768916, 1309151649,
   4149444226, 3174756917, 718787259, 3951481745]

/-- Standard MD5 per-round left-rotation amounts. -/
def MD5_S : List Nat :=
  [7, 12, 17, 22, 7, 12, 17, 22, 7, 12, 17, 22, 7, 12, 17, 22,
   5, 9, 14, 20, 5, 9, 14, 20, 5, 9, 14, 20, 5, 9, 14, 20,
   4, 11, 16, 23, 4, 11, 16, 23, 4, 11, 16, 23, 4, 11, 16, 23,
   6, 10, 15, 21, 6, 10, 15, 21, 6, 10, 15, 21, 6, 10, 15, 21]

def mask32 : Nat := 4294967295

def pow32 : Nat := 4294967296

/-- Rotate a 32-bit word left by s bits (s between 1 and 31). -/
def rotl32 (x s : Nat) : Nat :=
  (x % 2 ^ (32 - s)) * 2 ^ s + x / 2 ^ (32 - s)

def md5F (b c d : Nat) : Nat := (b &&& c) ||| ((b ^^^ mask32) &&& d)

def md5G (b c d : Nat) : Nat := (d &&& b) ||| ((d ^^^ mask32) &&& c)

def md5H (b c d : Nat) : Nat := b ^^^ c ^^^ d

def md5I (b c d : Nat) : Nat := c ^^^ (b ||| (d ^^^ mask32))

structure MD5State where
  a : Nat
  b : Nat
  c : Nat
  d : Nat
deriving DecidableEq, Repr

/-- One of the 64 MD5 rounds; M is the accessor for the 16 message words. -/
def md5Round (M : Nat → Nat) (st : MD5State) (i : Nat) : MD5State :=
  let fg : Nat × Nat :=
    if i < 16 then (md5F st.b st.c st.d, i)
    else if i < 32 then (md5G st.b st.c st.d, (5 * i + 1) % 16)
    else if i < 48 then (md5H st.b st.c st.d, (3 * i + 5) % 16)
    else (md5I st.b st.c st.d, (7 * i) % 16)
  let tmp := (st.a + fg.1 + MD5_K.getD i 0 + M fg.2) % pow32
  ⟨st.d, (st.b + rotl32 tmp (MD5_S.getD i 0)) % pow32, st.b, st.c⟩

/-- Little-endian 32-bit word j of a 64-byte block. -/
def wordAt (block : List Nat) (j : Nat) : Nat :=
  block.getD (4 * j) 0 + block.getD (4 * j + 1) 0 * 256 +
    block.getD (4 * j + 2) 0 * 65536 + block.getD (4 * j + 3) 0 * 16777216

def md5Block (st : MD5State) (block : List Nat) : MD5State :=
  let r := (List.range 64).foldl (md5Round (wordAt block)) st
  ⟨(st.a + r.a) % pow32, (st.b + r.b) % pow32, (st.c + r.c) % pow32,
   (st.d + r.d) % pow32⟩

/-- Little-endian byte expansion of n to k bytes. -/
def leBytes (n : Nat) : Nat → List Nat
  | 0 => []
  | k + 1 => n % 256 :: leBytes (n / 256) k

/-- MD5 padding: 0x80, zeros to 56 mod 64, then the 64-bit bit length. -/
def md5Pad (msg : List Nat) : List Nat :=
  msg ++ [128] ++ List.replicate ((119 - msg.length % 64) % 64) 0 ++
    leBytes (msg.length * 8 % 2 ^ 64) 8

/-- Split a byte list into 64-byte blocks (structural fuel recursion; each
step consumes at least one byte, so fuel equal to the length suffices). -/
def chunksOf64Fuel : Nat → List Nat → List (List Nat)
  | _, [] => []
  | 0, l => [l]
  | fuel + 1, x :: xs => (x :: xs).take 64 :: chunksOf64Fuel fuel ((x :: xs).drop 64)

def chunksOf64 (l : List Nat) : List (List Nat) := chunksOf64Fuel l.length l

def md5Digest (msg : List Nat) : List Nat :=
  let f := (chunksOf64 (md5Pad msg)).foldl md5Block
    ⟨1732584193, 4023233417, 2562383102, 271733878⟩
  leBytes f.a 4 ++ leBytes f.b 4 ++ leBytes f.c 4 ++ leBytes f.d 4

def hexDigit (n : Nat) : Char :=
  if n < 10 then Char.ofNat (48 + n) else Char.ofNat (87 + n)

def byteToHex (b : Nat) : List Char := [hexDigit (b / 16), hexDigit (b % 16)]

/-- UTF-8 encoding of a character sequence, as Node Buffer does for update(). -/
def utf8Bytes : List Char → List Nat
  | [] => []
  | c :: cs =>
    (if c.toNat < 128 then [c.toNat]
     else if c.toNat < 2048 then
       [192 + c.toNat / 64, 128 + c.toNat % 64]
     else if c.toNat < 65536 then
       [224 + c.toNat / 4096, 128 + c.toNat / 64 % 64, 128 + c.toNat % 64]
     else
       [240 + c.toNat / 262144, 128 + c.toNat / 4096 % 64,
        128 + c.toNat / 64 % 64, 128 + c.toNat % 64]) ++ utf8Bytes cs

/-- Model of md5(content) from chunking.js: hex digest of the utf-8 bytes. -/
def md5Hex (content : List Char) : List Char :=
  ((md5Digest (utf8Bytes content)).map byteToHex).flatten

/-! ## Content chunking (dist/logic/chunking.js) -/

/-- Number of UTF-16 units the character contributes to JSON.stringify output. -/
def jsonCharLen (c : Char) : Nat :=
  if c = '"' ∨ c = '\\' then 2
  else if c = '\n' ∨ c = '\r' ∨ c = '\t' ∨ c.toNat = 8 ∨ c.toNat = 12 then 2
  else if c.toNat < 32 then 6
  else if c.toNat ≥ 65536 then 2
  else 1

/-- Model of estimateJsonSize: JSON.stringify(content).length.  (For string
inputs JSON.stringify never throws, so the catch branch is unreachable.) -/
def estimateJsonSize (content : List Char) : Nat :=
  2 + (content.map jsonCharLen).sum

def MCP_SAFE_SIZE : Nat := 3500

def MCP_CHUNK_SIZE : Nat := 3000

/-- Model of needsChunking(content, safeSize). -/
def needsChunking (content : List Char) (safeSize : Nat) : Bool :=
  estimateJsonSize content > safeSize

/-- Largest index i at or below the cursor where needle occurs in hay
(the JS String.lastIndexOf scan). -/
def lastIndexOfFrom (needle hay : List Char) : Nat → Option Nat
  | 0 => if needle.isPrefixOf hay then some 0 else none
  | i + 1 =>
    if needle.isPrefixOf (hay.drop (i + 1)) then some (i + 1)
    else lastIndexOfFrom needle hay i

/-- Model of hay.lastIndexOf(needle, fromIdx), with -1 for no occurrence. -/
def jsLastIndexOf (needle hay : List Char) (fromIdx : Nat) : Int :=
  match lastIndexOfFrom needle hay fromIdx with
  | some i => (i : Int)
  | none => -1

/-- Cut-point search of chunkContent: paragraph break past the window
midpoint, else line break, else sentence end, else a hard cut at the
target size.  Over the reals, i exceeds chunkSize / 2 iff 2 * i exceeds
chunkSize. -/
def splitPoint (chunkSize : Nat) (remaining : List Char) : Nat :=
  let paraBreak := jsLastIndexOf ['\n', '\n'] remaining chunkSize
  if 2 * paraBreak > (chunkSize : Int) then (paraBreak + 2).toNat
  else
    let lineBreak := jsLastIndexOf ['\n'] remaining chunkSize
    if 2 * lineBreak > (chunkSize : Int) then (lineBreak + 1).toNat
    else
      let sentenceEnd :=
        max (jsLastIndexOf ['.', ' '] remaining chunkSize)
          (max (jsLastIndexOf ['!', ' '] remaining chunkSize)
            (jsLastIndexOf ['?', ' '] remaining chunkSize))
      if 2 * sentenceEnd > (chunkSize : Int) then (sentenceEnd + 2).toNat
      else chunkSize

/-- The while loop of chunkContent.  The fuel argument models possible
divergence (the JS loop does not terminate when chunkSize is 0 and no
break point is found); with chunkSize at least 1 enough fuel always
exists. -/
def chunkLoop (chunkSize : Nat) : Nat → List Char → Option (List (List Char))
  | 0, _ => none
  | fuel + 1, remaining =>
    if remaining.isEmpty then some []
    else if remaining.length ≤ chunkSize then some [remaining]
    else
      let sp := splitPoint chunkSize remaining
      (chunkLoop chunkSize fuel (remaining.drop sp)).map
        (fun rest => remaining.take sp :: rest)

structure ChunkedContent where
  chunks : List (List Char)
  totalSize : Nat
  chunkCount : Nat
  checksum : List Char
deriving DecidableEq, Repr

/-- Model of chunkContent(content, chunkSize).  none models divergence of
the source loop (possible only for chunkSize = 0). -/
def chunkContent (content : List Char) (chunkSize : Nat) : Option ChunkedContent :=
  if ¬ needsChunking content MCP_SAFE_SIZE then
    some ⟨[content], content.length, 1, md5Hex content⟩
  else
    (chunkLoop chunkSize (content.length + 1) content).map
      (fun chunks => ⟨chunks, content.length, chunks.length, md5Hex content⟩)

/-- Error taxonomy.  The first five constructors model the classes of
utils/errors.js (ContextableError subclasses); integrityError models the
IntegrityError named by the specification document, which has no
counterpart class anywhere in the code; plainError models the built-in
Error. -/
inductive StoreErr where
  | notFoundError (resource id : String)
  | validationError (message : String)
  | conflictError (message : String)
  | storageError (message : String)
  | integrityError (message : String)
  | plainError (message : String)
deriving DecidableEq, Repr

deriving instance DecidableEq for Except

def errIsIntegrity : StoreErr → Bool
  | .integrityError _ => true
  | _ => false

def exceptIsOk {ε α : Type} : Except ε α → Bool
  | .ok _ => true
  | .error _ => false

/-- Model of reassembleChunks(chunks, checksum).  The source guards
verification with a JS truthiness test, if (checksum): an absent
(undefined) checksum and the empty string both skip verification and
return the joined content. -/
def reassembleChunks (chunks : List (List Char)) (checksum : Option (List Char)) :
    Except StoreErr (List Char) :=
  let content := chunks.flatten
  match checksum with
  | some expected =>
    if expected ≠ [] then
      if md5Hex content ≠ expected then
        .error (.plainError (String.mk ("Checksum mismatch: expected ".toList ++
          expected ++ ", got ".toList ++ md5Hex content)))
      else .ok content
    else .ok content
  | none => .ok content

/-- Hard cuts at exactly the target size (specification-side description of
the degraded chunking behaviour; the max keeps the recursion well founded,
and equals cs for every positive cs). -/
def hardChunks (cs : Nat) : List Char → List (List Char)
  | [] => []
  | x :: xs =>
    if (x :: xs).length ≤ cs then [x :: xs]
    else (x :: xs).take (max 1 cs) :: hardChunks cs ((x :: xs).drop (max 1 cs))
termination_by l => l.length
decreasing_by simp [List.length_drop]

/-! ## Search snippet extraction (sqlite adapter, extractSnippet) -/

/-- First index at or after i where needle occurs in hay. -/
def indexOfFrom (needle : List Char) : List Char → Nat → Option Nat
  | [], i => if needle.isPrefixOf ([] : List Char) then some i else none
  | c :: t, i =>
    if needle.isPrefixOf (c :: t) then some i
    else indexOfFrom needle t (i + 1)

/-- First occurrence of needle in hay. -/
def firstIndexOf (needle hay : List Char) : Option Nat :=
  indexOfFrom needle hay 0

/-- Model of hay.indexOf(needle), with -1 for no occurrence. -/
def jsIndexOf (hay needle : List Char) : Int :=
  match firstIndexOf needle hay with
  | some i => (i : Int)
  | none => -1

/-- Model of toLowerCase (exact on the ASCII range). -/
def jsToLower (s : List Char) : List Char := s.map Char.toLower

def ellipsis : List Char := ['.', '.', '.']

/-- Body of extractSnippet after the summary branch. -/
def extractSnippetBody (content query : List Char) : List Char :=
  let matchIndex := jsIndexOf (jsToLower content) (jsToLower query)
  if matchIndex = -1 then
    content.take 200 ++ (if 200 < content.length then ellipsis else [])
  else
    let snippetStart := max 0 (matchIndex - 50)
    let snippetEnd := min (content.length : Int) (matchIndex + (query.length : Int) + 150)
    let snippet := (content.take snippetEnd.toNat).drop snippetStart.toNat
    let snippet := if snippetStart > 0 then ellipsis ++ snippet else snippet
    if snippetEnd < (content.length : Int) then snippet ++ ellipsis else snippet

/-- Model of extractSnippet(content, query, summary). -/
def extractSnippet (content query : List Char) (summary : Option (List Char)) :
    List Char :=
  match summary with
  | some s => if 0 < s.length then s.take 200 else extractSnippetBody content query
  | none => extractSnippetBody content query

/-! ## Storage interface types (storage/interface.ts) -/

inductive ArtifactType where
  | document | code | decision | conversation | file
deriving DecidableEq, Repr

inductive Priority where
  | core | normal | reference
deriving DecidableEq, Repr

inductive ChangeSource where
  | update | archive | restore | rollback
deriving DecidableEq, Repr

structure Artifact where
  id : String
  project_id : String
  title : String
  artifact_type : ArtifactType
  content : String
  summary : Option String
  priority : Priority
  tags : List String
  version : Nat
  archived_at : Option String
  created_at : String
  updated_at : String
deriving DecidableEq, Repr

/-- Patch object of update(id, data); a present Option field models a field
present on the TypeScript object (summary may be explicitly set to null). -/
structure ArtifactUpdate where
  title : Option String
  content : Option String
  summary : Option (Option String)
  priority : Option Priority
  tags : Option (List String)
deriving DecidableEq, Repr

/-- The updates-object emptiness test of the SQLite backend
(updates.length === 0). -/
def ArtifactUpdate.isEmpty (u : ArtifactUpdate) : Bool :=
  u.title.isNone && u.content.isNone && u.summary.isNone &&
    u.priority.isNone && u.tags.isNone

def emptyPatch : ArtifactUpdate := ⟨none, none, none, none, none⟩

/-- A patch that changes only the content field. -/
def contentPatch (c : String) : ArtifactUpdate := ⟨none, some c, none, none, none⟩

/-- Interface shape ArtifactVersion; also the artifact_versions row of the
SQLite schema (content NOT NULL, priority nullable). -/
structure ArtifactVersion where
  id : String
  artifact_id : String
  version : Nat
  title : String
  content : String
  summary : Option String
  priority : Option Priority
  change_source : ChangeSource
  created_at : String
deriving DecidableEq, Repr

structure ArtifactSummary where
  id : String
  project_id : String
  title : String
  artifact_type : ArtifactType
  summary : Option String
  priority : Priority
  tags : List String
  version : Nat
  archived_at : Option String
  created_at : String
  updated_at : String
  size_chars : Nat
  tokens_est : Nat
deriving DecidableEq, Repr

structure ArtifactVersionSummary where
  id : String
  artifact_id : String
  version : Nat
  title : String
  summary : Option String
  priority : Option Priority
  change_source : ChangeSource
  created_at : String
  size_chars : Nat
  tokens_est : Nat
deriving DecidableEq, Repr

structure ArtifactListOptions where
  type : Option ArtifactType
  priority : Option Priority
  limit : Option Nat
  offset : Option Nat
  includeArchived : Option Bool
deriving DecidableEq, Repr

def defaultListOptions : ArtifactListOptions := ⟨none, none, none, none, none⟩

/-- Model of estimateTokens (logic/tokens.ts): floor(chars / 4). -/
def estimateTokens (chars : Nat) : Nat := chars / 4

/-- Lexicographic comparison of character lists: the order the relational
engines apply to TEXT timestamp columns (bytewise comparison, which for
the ASCII ISO-8601 strings now() produces coincides with codepoint
order). -/
def charListLe : List Char → List Char → Bool
  | [], _ => true
  | _ :: _, [] => false
  | a :: as, b :: bs => if a < b then true else if b < a then false else charListLe as bs

/-- Timestamp-string comparison used by the ORDER BY clauses. -/
def strLe (a b : String) : Bool := charListLe a.data b.data

/-- Generic insertion into a list ordered by the boolean comparator
(le x y meaning x may precede y); models the deterministic ORDER BY of
the underlying relational engine. -/
def insertBy {α : Type} (le : α → α → Bool) (x : α) : List α → List α
  | [] => [x]
  | y :: ys => if le x y then x :: y :: ys else y :: insertBy le x ys

def sortBy {α : Type} (le : α → α → Bool) : List α → List α
  | [] => []
  | x :: xs => insertBy le x (sortBy le xs)

/-! ## SQLite backend (storage/sqlite/artifacts.ts) -/

namespace SQLite

/-- State of the two tables the artifact store touches. -/
structure DB where
  artifacts : List Contextable.Artifact
  versions : List Contextable.ArtifactVersion
deriving DecidableEq, Repr

/-- SELECT * FROM artifacts WHERE id = ? (get). -/
def getArtifact (db : DB) (id : String) : Option Artifact :=
  db.artifacts.find? (fun a => a.id == id)

/-- SELECT * FROM artifact_versions WHERE id = ? (getVersion). -/
def getVersion (db : DB) (versionId : String) : Option ArtifactVersion :=
  db.versions.find? (fun r => r.id == versionId)

/-- The row INSERTed by saveVersion (note: created_at is the artifact's
updated_at, as in the source). -/
def snapRow (versionId : String) (artifact : Artifact) (changeSource : ChangeSource) :
    ArtifactVersion :=
  ⟨versionId, artifact.id, artifact.version, artifact.title, artifact.content,
   artifact.summary, some artifact.priority, changeSource, artifact.updated_at⟩

/-- Model of the private saveVersion helper. -/
def saveVersion (db : DB) (artifact : Artifact) (changeSource : ChangeSource)
    (versionId : String) : DB :=
  { db with versions := db.versions ++ [snapRow versionId artifact changeSource] }

/-- The SET clause of the UPDATE statement built by update, applied to a
row (only supplied fields change; version = version + 1; updated_at set). -/
def applyUpdate (a : Artifact) (data : ArtifactUpdate) (ts : String) : Artifact :=
  { a with
    title := data.title.getD a.title
    content := data.content.getD a.content
    summary := data.summary.getD a.summary
    priority := data.priority.getD a.priority
    tags := data.tags.getD a.tags
    version := a.version + 1
    updated_at := ts }

/-- Model of update(id, data); versionId and ts stand for the generated
snapshot id and the timestamp now() produces.  The returned state reflects
all rows written before a throw (there is no transaction in the source). -/
def update (db : DB) (id : String) (data : ArtifactUpdate) (versionId ts : String) :
    DB × Except StoreErr Artifact :=
  match getArtifact db id with
  | none => (db, .error (.notFoundError "Artifact" id))
  | some existing =>
    let db1 := saveVersion db existing .update versionId
    if data.isEmpty then (db1, .ok existing)
    else
      let db2 := { db1 with
        artifacts := db1.artifacts.map (fun a => if a.id == id then applyUpdate a data ts else a) }
      match getArtifact db2 id with
      | some updated => (db2, .ok updated)
      | none => (db2, .error (.plainError "Failed to update artifact"))

/-- Model of archive(id). -/
def archive (db : DB) (id : String) (versionId ts : String) :
    DB × Except StoreErr Artifact :=
  match getArtifact db id with
  | none => (db, .error (.notFoundError "Artifact" id))
  | some existing =>
    if existing.archived_at.isSome then (db, .ok existing)
    else
      let db1 := saveVersion db existing .archive versionId
      let db2 := { db1 with
        artifacts := db1.artifacts.map (fun a =>
          if a.id == id then { a with archived_at := some ts, updated_at := ts } else a) }
      match getArtifact db2 id with
      | some archived => (db2, .ok archived)
      | none => (db2, .error (.plainError "Failed to archive artifact"))

/-- Model of restore(id). -/
def restore (db : DB) (id : String) (versionId ts : String) :
    DB × Except StoreErr Artifact :=
  match getArtifact db id with
  | none => (db, .error (.notFoundError "Artifact" id))
  | some existing =>
    if existing.archived_at.isNone then (db, .ok existing)
    else
      let db1 := saveVersion db existing .restore versionId
      let db2 := { db1 with
        artifacts := db1.artifacts.map (fun a =>
          if a.id == id then
            { a with archived_at := none, updated_at := ts, version := a.version + 1 }
          else a) }
      match getArtifact db2 id with
      | some restored => (db2, .ok restored)
      | none => (db2, .error (.plainError "Failed to restore artifact"))

def rowToVersionSummary (r : ArtifactVersion) : ArtifactVersionSummary :=
  ⟨r.id, r.artifact_id, r.version, r.title, r.summary, r.priority,
   r.change_source, r.created_at, r.content.length, r.content.length / 4⟩

/-- ORDER BY version DESC comparator. -/
def versionDescLe (r s : ArtifactVersion) : Bool := decide (s.version ≤ r.version)

/-- Model of getVersions(id, limit) (default limit 10 at the call site). -/
def getVersions (db : DB) (id : String) (limit : Nat) :
    Except StoreErr (List ArtifactVersionSummary) :=
  match getArtifact db id with
  | none => .error (.notFoundError "Artifact" id)
  | some _ =>
    .ok (((sortBy versionDescLe (db.versions.filter (fun r => r.artifact_id == id))).take
      limit).map rowToVersionSummary)

/-- The SET clause of the UPDATE statement built by rollback: overwrite
title/content/summary from the snapshot, priority from the snapshot with
the existing row's priority as fallback, bump version, set updated_at. -/
def rollbackApply (version : ArtifactVersion) (existing : Artifact) (ts : String)
    (a : Artifact) : Artifact :=
  { a with
    title := version.title
    content := version.content
    summary := version.summary
    priority := version.priority.getD existing.priority
    version := a.version + 1
    updated_at := ts }

/-- Model of rollback(id, versionId). -/
def rollback (db : DB) (id versionId : String) (newVersionId ts : String) :
    DB × Except StoreErr Artifact :=
  match getArtifact db id with
  | none => (db, .error (.notFoundError "Artifact" id))
  | some existing =>
    match getVersion db versionId with
    | none => (db, .error (.notFoundError "Version" versionId))
    | some version =>
      if version.artifact_id ≠ id then (db, .error (.notFoundError "Version" versionId))
      else
        let db1 := saveVersion db existing .rollback newVersionId
        let db2 := { db1 with
          artifacts := db1.artifacts.map (fun a =>
            if a.id == id then rollbackApply version existing ts a else a) }
        match getArtifact db2 id with
        | some rolled => (db2, .ok rolled)
        | none => (db2, .error (.plainError "Failed to rollback artifact"))

def rowToSummary (a : Artifact) : ArtifactSummary :=
  ⟨a.id, a.project_id, a.title, a.artifact_type, a.summary, a.priority, a.tags,
   a.version, a.archived_at, a.created_at, a.updated_at, a.content.length,
   a.content.length / 4⟩

/-- ORDER BY priority = core DESC, updated_at DESC comparator. -/
def listLe (a b : Artifact) : Bool :=
  let ca := a.priority == Priority.core
  let cb := b.priority == Priority.core
  if ca == cb then strLe b.updated_at a.updated_at else ca

/-- Model of list(projectId, options): WHERE filters, the ORDER BY above,
then LIMIT (default 50) and OFFSET (default 0). -/
def list (db : DB) (projectId : String) (options : ArtifactListOptions) :
    List ArtifactSummary :=
  let limit := options.limit.getD 50
  let offset := options.offset.getD 0
  let includeArchived := options.includeArchived.getD false
  let rows := db.artifacts.filter (fun a =>
    a.project_id == projectId &&
    (includeArchived || a.archived_at.isNone) &&
    (match options.type with | none => true | some t => a.artifact_type == t) &&
    (match options.priority with | none => true | some p => a.priority == p))
  (((sortBy listLe rows).drop offset).take limit).map rowToSummary

end SQLite

namespace Supabase

/-- Columns of the hosted projects table used by the ownership joins. -/
structure ProjectRow where
  id : String
  user_id : String
deriving DecidableEq, Repr

/-- Hosted artifacts row (priority and tags are nullable in this backend). -/
structure ArtifactRow where
  id : String
  project_id : String
  title : String
  artifact_type : ArtifactType
  content : String
  summary : Option String
  priority : Option Priority
  tags : Option (List String)
  version : Nat
  archived_at : Option String
  created_at : String
  updated_at : String
deriving DecidableEq, Repr

/-- Hosted artifact_versions row (content nullable in this backend). -/
structure VersionRow where
  id : String
  artifact_id : String
  version : Nat
  title : String
  content : Option String
  summary : Option String
  priority : Option Priority
  change_source : ChangeSource
  created_at : String
deriving DecidableEq, Repr

structure DB where
  projects : List ProjectRow
  artifacts : List ArtifactRow
  versions : List VersionRow
deriving DecidableEq, Repr

def rowToArtifact (r : ArtifactRow) : Artifact :=
  ⟨r.id, r.project_id, r.title, r.artifact_type, r.content, r.summary,
   r.priority.getD .normal, r.tags.getD [], r.version, r.archived_at,
   r.created_at, r.updated_at⟩

/-- Model of get(id): select with inner projects join, then verify that the
owning project belongs to the authenticated user; null on mismatch. -/
def getArtifact (db : DB) (userId id : String) : Option Artifact :=
  match db.artifacts.find? (fun a => a.id == id) with
  | none => none
  | some row =>
    match db.projects.find? (fun p => p.id == row.project_id) with
    | none => none
    | some p => if p.user_id == userId then some (rowToArtifact row) else none

/-- Model of getVersion(versionId): join through artifacts to projects and
verify tenant ownership (content defaults to the empty string). -/
def getVersion (db : DB) (userId versionId : String) : Option ArtifactVersion :=
  match db.versions.find? (fun v => v.id == versionId) with
  | none => none
  | some row =>
    match db.artifacts.find? (fun a => a.id == row.artifact_id) with
    | none => none
    | some art =>
      match db.projects.find? (fun p => p.id == art.project_id) with
      | none => none
      | some p =>
        if p.user_id == userId then
          some ⟨row.id, row.artifact_id, row.version, row.title,
            row.content.getD "", row.summary, row.priority, row.change_source,
            row.created_at⟩
        else none

/-- Modelled from the spec: the hosted backend writes artifact_versions rows
through a database trigger on UPDATE of the artifacts table (the source
only refers to it in the rollback comment; the trigger itself is not in
the repository).  Per the specification it snapshots the pre-mutation row
with the operation's change-source tag. -/
def triggerSnap (versionId : String) (r : ArtifactRow) (changeSource : ChangeSource)
    (snapTs : String) : VersionRow :=
  ⟨versionId, r.id, r.version, r.title, some r.content, r.summary, r.priority,
   changeSource, snapTs⟩

/-- The updates object built by update(id, data): the version counter and
updated_at are set unconditionally, supplied fields overwrite. -/
def updateRow (existing : Artifact) (data : ArtifactUpdate) (ts : String)
    (r : ArtifactRow) : ArtifactRow :=
  { r with
    version := existing.version + 1
    updated_at := ts
    title := data.title.getD r.title
    content := data.content.getD r.content
    summary := data.summary.getD r.summary
    priority := match data.priority with | some p => some p | none => r.priority
    tags := match data.tags with | some t => some t | none => r.tags }

/-- Model of update(id, data): the snapshot trigger fires on the UPDATE
statement, and the updates object above is applied to the matching row. -/
def update (db : DB) (userId id : String) (data : ArtifactUpdate)
    (versionId snapTs ts : String) : DB × Except StoreErr Artifact :=
  match getArtifact db userId id with
  | none => (db, .error (.plainError ("Artifact not found: " ++ id)))
  | some existing =>
    let db2 : DB := { db with
      versions := db.versions ++
        ((db.artifacts.filter (fun a => a.id == id)).map
          (fun r => triggerSnap versionId r .update snapTs))
      artifacts := db.artifacts.map (fun a =>
        if a.id == id then updateRow existing data ts a else a) }
    match db2.artifacts.find? (fun a => a.id == id) with
    | some r => (db2, .ok (rowToArtifact r))
    | none => (db2, .error (.plainError "Failed to update artifact"))

/-- The updates object built by rollback: snapshot fields overwrite, with
the existing artifact's priority as fallback for a null snapshot priority,
and version = existing.version + 1. -/
def rollbackRow (version : ArtifactVersion) (existing : Artifact) (ts : String)
    (r : ArtifactRow) : ArtifactRow :=
  { r with
    title := version.title
    content := version.content
    summary := version.summary
    priority := some (version.priority.getD existing.priority)
    version := existing.version + 1
    updated_at := ts }

/-- Model of rollback(id, versionId): version lookup first, then the
belongs-to check, then ownership of the artifact, then the UPDATE carrying
the updates object above. -/
def rollback (db : DB) (userId id versionId : String) (snapVersionId snapTs ts : String) :
    DB × Except StoreErr Artifact :=
  match getVersion db userId versionId with
  | none => (db, .error (.plainError ("Version not found: " ++ versionId)))
  | some version =>
    if version.artifact_id ≠ id then
      (db, .error (.plainError ("Version " ++ versionId ++ " does not belong to artifact " ++ id)))
    else
      match getArtifact db userId id with
      | none => (db, .error (.plainError ("Artifact not found: " ++ id)))
      | some existing =>
        let db2 : DB := { db with
          versions := db.versions ++
            ((db.artifacts.filter (fun a => a.id == id)).map
              (fun r => triggerSnap snapVersionId r .rollback snapTs))
          artifacts := db.artifacts.map (fun a =>
            if a.id == id then rollbackRow version existing ts a else a) }
        match db2.artifacts.find? (fun a => a.id == id) with
        | some r => (db2, .ok (rowToArtifact r))
        | none => (db2, .error (.plainError "Failed to rollback artifact"))

def rowToSummary (r : ArtifactRow) : ArtifactSummary :=
  ⟨r.id, r.project_id, r.title, r.artifact_type, r.summary,
   r.priority.getD .normal, r.tags.getD [], r.version, r.archived_at,
   r.created_at, r.updated_at, r.content.length, estimateTokens r.content.length⟩

/-- ORDER BY updated_at DESC comparator (the only ordering this backend's
list applies). -/
def updatedDescLe (a b : ArtifactRow) : Bool := strLe b.updated_at a.updated_at

/-- Model of list(projectId, options): ownership check, WHERE filters,
order by updated_at descending, then range(offset, offset + limit - 1)
with limit = min(options.limit ?? 20, 50). -/
def list (db : DB) (userId projectId : String) (options : ArtifactListOptions) :
    Except StoreErr (List ArtifactSummary) :=
  match db.projects.find? (fun p => p.id == projectId && p.user_id == userId) with
  | none => .error (.plainError ("Project not found: " ++ projectId))
  | some _ =>
    let limit := min (options.limit.getD 20) 50
    let offset := options.offset.getD 0
    let rows := db.artifacts.filter (fun a =>
      a.project_id == projectId &&
      (options.includeArchived.getD false || a.archived_at.isNone) &&
      (match options.type with | none => true | some t => a.artifact_type == t) &&
      (match options.priority with | none => true | some p => a.priority == some p))
    .ok ((((sortBy updatedDescLe rows).drop offset).take limit).map rowToSummary)

end Supabase

/-! ## Auxiliary definitions used to state the claims -/

def errIsNotFound : StoreErr → Bool
  | .notFoundError _ _ => true
  | _ => false

def resultErrIsIntegrity : Except StoreErr (List Char) → Bool
  | .error e => errIsIntegrity e
  | .ok _ => false

def resultVersion : Except StoreErr Artifact → Nat
  | .ok a => a.version
  | .error _ => 0

/-- Whether needle occurs anywhere in hay. -/
def containsSub (needle hay : List Char) : Bool :=
  (firstIndexOf needle hay).isSome

/-- No paragraph break, no line break, no sentence-ending punctuation
followed by a space. -/
def noNaturalBreaks (content : List Char) : Bool :=
  !(content.contains '\n') && !(containsSub ['.', ' '] content) &&
    !(containsSub ['!', ' '] content) && !(containsSub ['?', ' '] content)

/-- Absence of every cut-point pattern at every position: no paragraph
break, no line break, and no sentence-ending punctuation followed by a
space occurs anywhere in the string or any of its suffixes. -/
def breakFree (rem : List Char) : Prop :=
  (∀ k, (['\n', '\n'] : List Char).isPrefixOf (rem.drop k) = false) ∧
  (∀ k, (['\n'] : List Char).isPrefixOf (rem.drop k) = false) ∧
  (∀ k, (['.', ' '] : List Char).isPrefixOf (rem.drop k) = false) ∧
  (∀ k, (['!', ' '] : List Char).isPrefixOf (rem.drop k) = false) ∧
  (∀ k, (['?', ' '] : List Char).isPrefixOf (rem.drop k) = false)

/-- N successive update calls on the SQLite store, each patching only the
content field; inputs are (new content, generated snapshot id, timestamp).
none models a thrown error. -/
def runUpdates (db : SQLite.DB) (id : String) :
    List (String × String × String) → Option SQLite.DB
  | [] => some db
  | (c, vid, ts) :: rest =>
    match SQLite.update db id (contentPatch c) vid ts with
    | (db1, .ok _) => runUpdates db1 id rest
    | (_, .error _) => none

/-- Effect of one content-only update on the artifact row. -/
def stepArt (a : Artifact) (c ts : String) : Artifact :=
  { a with content := c, version := a.version + 1, updated_at := ts }

/-- Artifact row after a sequence of content-only updates. -/
def finalArt (a : Artifact) : List (String × String × String) → Artifact
  | [] => a
  | (c, _, ts) :: rest => finalArt (stepArt a c ts) rest

/-- Version-history rows appended by a sequence of content-only updates. -/
def expRows (a : Artifact) : List (String × String × String) → List ArtifactVersion
  | [] => []
  | (c, vid, ts) :: rest => SQLite.snapRow vid a .update :: expRows (stepArt a c ts) rest

/-- The SQLite active-listing order on summaries: core first, then
updated_at descending. -/
def summaryListLe (a b : ArtifactSummary) : Bool :=
  let ca := a.priority == Priority.core
  let cb := b.priority == Priority.core
  if ca == cb then strLe b.updated_at a.updated_at else ca

/-- The Supabase listing order on summaries: updated_at descending only. -/
def summaryUpdatedLe (a b : ArtifactSummary) : Bool :=
  strLe b.updated_at a.updated_at

/-! Concrete states used by counterexamples and witnesses. -/

def cexArt : Artifact :=
  ⟨"a1", "p1", "Doc", .document, "c0", none, .normal, [], 1, none,
   "2024-01-01T00:00:00Z", "2024-01-01T00:00:00Z"⟩

def cexSqliteDB : SQLite.DB := ⟨[cexArt], []⟩

def cexSbRow : Supabase.ArtifactRow :=
  ⟨"a1", "p1", "Doc", .document, "c0", none, some .normal, some [], 1, none,
   "2024-01-01T00:00:00Z", "2024-01-01T00:00:00Z"⟩

def cexSbProj : Supabase.ProjectRow := ⟨"p1", "u1"⟩

def cexSupabaseDB : Supabase.DB := ⟨[cexSbProj], [cexSbRow], []⟩

def artCoreOld : Artifact :=
  ⟨"a1", "p1", "A", .document, "x", none, .core, [], 1, none,
   "2024-01-01T00:00:00Z", "2024-01-01T00:00:00Z"⟩

def artNormalNew : Artifact :=
  ⟨"a2", "p1", "B", .document, "y", none, .normal, [], 1, none,
   "2024-01-02T00:00:00Z", "2024-01-02T00:00:00Z"⟩

def listSqliteDB : SQLite.DB := ⟨[artCoreOld, artNormalNew], []⟩

def sbRowCoreOld : Supabase.ArtifactRow :=
  ⟨"a1", "p1", "A", .document, "x", none, some .core, some [], 1, none,
   "2024-01-01T00:00:00Z", "2024-01-01T00:00:00Z"⟩

def sbRowNormalNew : Supabase.ArtifactRow :=
  ⟨"a2", "p1", "B", .document, "y", none, some .normal, some [], 1, none,
   "2024-01-02T00:00:00Z", "2024-01-02T00:00:00Z"⟩

def listSupabaseDB : Supabase.DB := ⟨[cexSbProj], [sbRowCoreOld, sbRowNormalNew], []⟩

def cexSbRow2 : Supabase.ArtifactRow :=
  ⟨"a2", "p1", "Other", .document, "z", none, some .normal, some [], 2, none,
   "2024-01-01T00:00:00Z", "2024-01-01T00:00:00Z"⟩

def cexSbVersionOther : Supabase.VersionRow :=
  ⟨"v9", "a2", 1, "Other", some "zz", none, some .normal, .update,
   "2024-01-01T00:00:00Z"⟩

/-- Supabase state holding a version row that belongs to artifact a2, used
against a rollback that names artifact a1. -/
def cexSupabaseDB7 : Supabase.DB :=
  ⟨[cexSbProj], [cexSbRow, cexSbRow2], [cexSbVersionOther]⟩

def cexSqliteVersionOther : ArtifactVersion :=
  ⟨"v9", "a2", 1, "Other", "zz", none, some .normal, .update,
   "2024-01-01T00:00:00Z"⟩

def cexSqliteDB7 : SQLite.DB := ⟨[cexArt], [cexSqliteVersionOther]⟩

def cexSqliteSnapshot : ArtifactVersion :=
  ⟨"v1", "a1", 1, "Doc", "c0", none, some .normal, .update,
   "2024-01-01T00:00:00Z"⟩

/-- SQLite state with one artifact at version 3 and one snapshot of its
version-1 state, used to exercise rollback. -/
def rollbackArt : Artifact :=
  { cexArt with content := "c2", version := 3, updated_at := "2024-01-03T00:00:00Z" }

def rollbackSqliteDB : SQLite.DB := ⟨[rollbackArt], [cexSqliteSnapshot]⟩

def cexSbSnapshot : Supabase.VersionRow :=
  ⟨"v1", "a1", 1, "Doc", some "c0", none, some .normal, .update,
   "2024-01-01T00:00:00Z"⟩

/-- Supabase state with one artifact at version 3 and one snapshot of its
version-1 state, used to exercise rollback. -/
def rollbackSbRow : Supabase.ArtifactRow :=
  { cexSbRow with content := "c2", version := 3, updated_at := "2024-01-03T00:00:00Z" }

def rollbackSupabaseDB : Supabase.DB :=
  ⟨[cexSbProj], [rollbackSbRow], [cexSbSnapshot]⟩

/-! ## General lemmas -/

theorem sqlite_find_map (l : List Artifact) (id : String) (f : Artifact → Artifact)
    (hf : ∀ a, (f a).id = a.id) :
    (l.map (fun a => if a.id == id then f a else a)).find? (fun a => a.id == id) =
      (l.find? (fun a => a.id == id)).map f := by
  induction l with
  | nil => rfl
  | cons x xs ih =>
    simp only [List.map_cons]
    by_cases h : (x.id == id) = true
    · rw [if_pos h]
      simp only [List.find?, hf x, h]
      rfl
    · have hb : (x.id == id) = false := by
        revert h; cases x.id == id <;> simp
      rw [if_neg h]
      simp only [List.find?, hf x, hb]
      exact ih

theorem supabase_find_map (l : List Supabase.ArtifactRow) (id : String)
    (f : Supabase.ArtifactRow → Supabase.ArtifactRow)
    (hf : ∀ a, (f a).id = a.id) :
    (l.map (fun a => if a.id == id then f a else a)).find? (fun a => a.id == id) =
      (l.find? (fun a => a.id == id)).map f := by
  induction l with
  | nil => rfl
  | cons x xs ih =>
    simp only [List.map_cons]
    by_cases h : (x.id == id) = true
    · rw [if_pos h]
      simp only [List.find?, hf x, h]
      rfl
    · have hb : (x.id == id) = false := by
        revert h; cases x.id == id <;> simp
      rw [if_neg h]
      simp only [List.find?, hf x, hb]
      exact ih

theorem applyUpdate_id (a : Artifact) (data : ArtifactUpdate) (ts : String) :
    (SQLite.applyUpdate a data ts).id = a.id := rfl

theorem rollbackApply_id (v : ArtifactVersion) (e : Artifact) (ts : String)
    (a : Artifact) : (SQLite.rollbackApply v e ts a).id = a.id := rfl

theorem updateRow_id (e : Artifact) (data : ArtifactUpdate) (ts : String)
    (r : Supabase.ArtifactRow) : (Supabase.updateRow e data ts r).id = r.id := rfl

theorem rollbackRow_id (v : ArtifactVersion) (e : Artifact) (ts : String)
    (r : Supabase.ArtifactRow) : (Supabase.rollbackRow v e ts r).id = r.id := rfl

theorem md5Hex_ne_nil (s : List Char) : md5Hex s ≠ [] := by
  simp [md5Hex, md5Digest, leBytes, byteToHex]

theorem chunkLoop_join (cs : Nat) :
    ∀ (fuel : Nat) (rem : List Char) (out : List (List Char)),
      chunkLoop cs fuel rem = some out → out.flatten = rem := by
  intro fuel
  induction fuel with
  | zero => intro rem out h; simp [chunkLoop] at h
  | succ f ih =>
    intro rem out h
    by_cases he : rem.isEmpty
    · simp [chunkLoop, he] at h
      subst h
      simpa [List.isEmpty_iff] using he
    · by_cases hl : rem.length ≤ cs
      · simp [chunkLoop, he, hl] at h
        subst h
        simp
      · simp [chunkLoop, he, hl] at h
        obtain ⟨rest, h1, h2⟩ := h
        subst h2
        simp [ih _ _ h1]

theorem splitPoint_pos (cs : Nat) (rem : List Char) (hcs : 1 ≤ cs) :
    1 ≤ splitPoint cs rem := by
  simp only [splitPoint]
  split
  · next h => omega
  · split
    · next h => omega
    · split
      · next h => omega
      · omega

theorem chunkLoop_isSome (cs : Nat) (hcs : 1 ≤ cs) :
    ∀ (fuel : Nat) (rem : List Char), rem.length < fuel →
      (chunkLoop cs fuel rem).isSome = true := by
  intro fuel
  induction fuel with
  | zero => intro rem h; omega
  | succ f ih =>
    intro rem h
    by_cases he : rem.isEmpty
    · simp [chunkLoop, he]
    · by_cases hl : rem.length ≤ cs
      · simp [chunkLoop, he, hl]
      · have h0 : rem ≠ [] := by simpa [List.isEmpty_iff] using he
        have hpos : 0 < rem.length := List.length_pos.mpr h0
        have hsp := splitPoint_pos cs rem hcs
        have hlen : (rem.drop (splitPoint cs rem)).length < f := by
          simp only [List.length_drop]; omega
        have hx := ih (rem.drop (splitPoint cs rem)) hlen
        simp only [chunkLoop, he, hl, if_false, ite_false]
        simpa using hx

theorem indexOfFrom_none_prefix (needle : List Char) :
    ∀ (hay : List Char) (i : Nat), indexOfFrom needle hay i = none →
      ∀ k, needle.isPrefixOf (hay.drop k) = false := by
  intro hay
  induction hay with
  | nil =>
    intro i h k
    by_cases hp : needle.isPrefixOf ([] : List Char)
    · simp [indexOfFrom, hp] at h
    · simpa [List.drop_nil] using Bool.eq_false_iff.mpr hp
  | cons c t ih =>
    intro i h k
    by_cases hp : needle.isPrefixOf (c :: t)
    · simp [indexOfFrom, hp] at h
    · simp only [indexOfFrom, hp, if_false, ite_false] at h
      cases k with
      | zero => simpa using Bool.eq_false_iff.mpr hp
      | succ k => simpa using ih (i + 1) h k

theorem lastIndexOfFrom_none (needle hay : List Char)
    (h : ∀ k, needle.isPrefixOf (hay.drop k) = false) :
    ∀ i, lastIndexOfFrom needle hay i = none := by
  intro i
  induction i with
  | zero =>
    have h0 := h 0
    rw [List.drop_zero] at h0
    simp [lastIndexOfFrom, h0]
  | succ i ih => simp [lastIndexOfFrom, h (i + 1), ih]

theorem prefix_head_mem (c : Char) (rest hay : List Char) (k : Nat)
    (h : ((c :: rest) : List Char).isPrefixOf (hay.drop k) = true) : c ∈ hay := by
  cases hdrop : hay.drop k with
  | nil => rw [hdrop] at h; simp [List.isPrefixOf] at h
  | cons x xs =>
    rw [hdrop] at h
    simp only [List.isPrefixOf, Bool.and_eq_true, beq_iff_eq] at h
    have hx : x ∈ hay.drop k := by rw [hdrop]; exact List.mem_cons_self x xs
    have := List.drop_subset k hay hx
    rwa [h.1]

theorem noNaturalBreaks_breakFree (content : List Char)
    (h : noNaturalBreaks content = true) : breakFree content := by
  simp only [noNaturalBreaks, Bool.and_eq_true, Bool.not_eq_true'] at h
  obtain ⟨⟨⟨hn, hd⟩, hb⟩, hq⟩ := h
  have hnm : '\n' ∉ content := by simpa using hn
  have hnl : ∀ (rest : List Char) k,
      (('\n' :: rest) : List Char).isPrefixOf (content.drop k) = false := by
    intro rest k
    cases hx : ('\n' :: rest).isPrefixOf (content.drop k) with
    | false => rfl
    | true => exact absurd (prefix_head_mem '\n' rest content k hx) hnm
  refine ⟨fun k => hnl ['\n'] k, fun k => hnl [] k, ?_, ?_, ?_⟩
  · exact fun k => indexOfFrom_none_prefix _ content 0
      (by simpa [containsSub, firstIndexOf, Option.isSome_iff_exists] using hd) k
  · exact fun k => indexOfFrom_none_prefix _ content 0
      (by simpa [containsSub, firstIndexOf, Option.isSome_iff_exists] using hb) k
  · exact fun k => indexOfFrom_none_prefix _ content 0
      (by simpa [containsSub, firstIndexOf, Option.isSome_iff_exists] using hq) k

theorem breakFree_drop (rem : List Char) (n : Nat) (h : breakFree rem) :
    breakFree (rem.drop n) := by
  obtain ⟨h1, h2, h3, h4, h5⟩ := h
  refine ⟨fun k => ?_, fun k => ?_, fun k => ?_, fun k => ?_, fun k => ?_⟩ <;>
    rw [List.drop_drop]
  · exact h1 (n + k)
  · exact h2 (n + k)
  · exact h3 (n + k)
  · exact h4 (n + k)
  · exact h5 (n + k)

theorem splitPoint_of_breakFree (cs : Nat) (rem : List Char) (h : breakFree rem) :
    splitPoint cs rem = cs := by
  obtain ⟨h1, h2, h3, h4, h5⟩ := h
  have e1 := lastIndexOfFrom_none _ _ h1 cs
  have e2 := lastIndexOfFrom_none _ _ h2 cs
  have e3 := lastIndexOfFrom_none _ _ h3 cs
  have e4 := lastIndexOfFrom_none _ _ h4 cs
  have e5 := lastIndexOfFrom_none _ _ h5 cs
  simp only [splitPoint, jsLastIndexOf, e1, e2, e3, e4, e5]
  have hneg : ¬ (2 * (-1 : Int) > (cs : Int)) := by omega
  rw [if_neg hneg, if_neg hneg, if_neg (by simpa using hneg)]

theorem chunkLoop_hard (cs : Nat) (hcs : 1 ≤ cs) :
    ∀ (fuel : Nat) (rem : List Char), rem.length < fuel → breakFree rem →
      chunkLoop cs fuel rem = some (hardChunks cs rem) := by
  intro fuel
  induction fuel with
  | zero => intro rem h hbf; omega
  | succ f ih =>
    intro rem h hbf
    cases rem with
    | nil => simp [chunkLoop, hardChunks]
    | cons x xs =>
      by_cases hl : (x :: xs).length ≤ cs
      · rw [List.length_cons] at hl
        simp [chunkLoop, hardChunks, hl]
      · have hsp := splitPoint_of_breakFree cs (x :: xs) hbf
        have hbf2 := breakFree_drop (x :: xs) cs hbf
        rw [List.length_cons] at hl h
        have hlen : ((x :: xs).drop cs).length < f := by
          simp only [List.length_drop, List.length_cons]
          omega
        have hmax : max 1 cs = cs := Nat.max_eq_right hcs
        have hrec := ih _ hlen hbf2
        rw [hardChunks]
        simp only [List.length_cons, hl, if_false, ite_false, hmax]
        simp [chunkLoop, List.length_cons, hl, hsp, hrec]

theorem hardChunks_flatten (cs : Nat) (l : List Char) :
    (hardChunks cs l).flatten = l := by
  have key : ∀ (n : Nat) (l : List Char), l.length ≤ n → (hardChunks cs l).flatten = l := by
    intro n
    induction n with
    | zero =>
      intro l h
      cases l with
      | nil => simp [hardChunks]
      | cons x xs => simp at h
    | succ n ih =>
      intro l h
      cases l with
      | nil => simp [hardChunks]
      | cons x xs =>
        by_cases hl : (x :: xs).length ≤ cs
        · rw [List.length_cons] at hl
          simp [hardChunks, hl]
        · rw [List.length_cons] at hl h
          rw [hardChunks]
          simp only [List.length_cons, hl, if_false, ite_false, List.flatten_cons]
          rw [ih _ (by simp only [List.length_drop, List.length_cons]; omega),
            List.take_append_drop]
  exact key l.length l (le_refl _)

theorem hardChunks_length (cs : Nat) (hcs : 1 ≤ cs) (l : List Char) :
    (hardChunks cs l).length = (l.length + cs - 1) / cs := by
  have key : ∀ (n : Nat) (l : List Char), l.length ≤ n →
      (hardChunks cs l).length = (l.length + cs - 1) / cs := by
    intro n
    induction n with
    | zero =>
      intro l h
      cases l with
      | nil =>
        simp only [hardChunks, List.length_nil]
        rw [Nat.div_eq_of_lt (by omega)]
      | cons x xs => simp at h
    | succ n ih =>
      intro l h
      cases l with
      | nil =>
        simp only [hardChunks, List.length_nil]
        rw [Nat.div_eq_of_lt (by omega)]
      | cons x xs =>
        by_cases hl : (x :: xs).length ≤ cs
        · rw [List.length_cons] at hl
          rw [hardChunks]
          simp only [List.length_cons, hl, if_true, ite_true, List.length_singleton]
          rw [show (xs.length + 1 + cs - 1) / cs = 1 from
            Nat.div_eq_of_lt_le (by omega) (by omega)]
          simp
        · rw [List.length_cons] at hl h
          have hmax : max 1 cs = cs := Nat.max_eq_right hcs
          have hrec := ih ((x :: xs).drop cs)
            (by simp only [List.length_drop, List.length_cons]; omega)
          simp only [List.length_drop, List.length_cons] at hrec
          rw [hardChunks]
          simp only [List.length_cons, hl, if_false, ite_false, hmax, List.length_cons, hrec]
          have hx : xs.length + 1 - cs + cs - 1 = xs.length + 1 - 1 := by omega
          have hy : xs.length + 1 + cs - 1 = (xs.length + 1 - 1) + 1 * cs := by omega
          rw [hx, hy, Nat.add_mul_div_right _ _ (by omega : 0 < cs)]
  exact key l.length l (le_refl _)

theorem indexOfFrom_replicate_ne (d : Char) (rest : List Char) (c : Char)
    (hne : (d == c) = false) :
    ∀ (n i : Nat), indexOfFrom (d :: rest) (List.replicate n c) i = none := by
  intro n
  induction n with
  | zero => intro i; simp [indexOfFrom, List.isPrefixOf]
  | succ n ih =>
    intro i
    simp only [List.replicate_succ, indexOfFrom, List.isPrefixOf, hne, Bool.false_and,
      if_false, ite_false]
    exact ih (i + 1)

theorem noNaturalBreaks_replicate_a (n : Nat) :
    noNaturalBreaks (List.replicate n 'a') = true := by
  simp only [noNaturalBreaks, containsSub, firstIndexOf, Bool.and_eq_true, Bool.not_eq_true']
  refine ⟨⟨⟨?_, ?_⟩, ?_⟩, ?_⟩
  · simp [List.mem_replicate]
  · rw [indexOfFrom_replicate_ne '.' [' '] 'a' (by decide)]; rfl
  · rw [indexOfFrom_replicate_ne '!' [' '] 'a' (by decide)]; rfl
  · rw [indexOfFrom_replicate_ne '?' [' '] 'a' (by decide)]; rfl

theorem needsChunking_replicate_a (n : Nat) (h : 3499 ≤ n) :
    needsChunking (List.replicate n 'a') MCP_SAFE_SIZE = true := by
  have hc : jsonCharLen 'a' = 1 := by decide
  simp only [needsChunking, estimateJsonSize, List.map_replicate, hc, List.sum_replicate,
    smul_eq_mul, Nat.mul_one, MCP_SAFE_SIZE]
  simp only [decide_eq_true_eq]
  omega


theorem charListLe_refl : ∀ x, charListLe x x = true := by
  intro x
  induction x with
  | nil => rfl
  | cons a as ih => simp only [charListLe, if_neg (lt_irrefl a)]; exact ih

theorem charListLe_total : ∀ x y, charListLe x y = true ∨ charListLe y x = true := by
  intro x
  induction x with
  | nil => intro y; left; rfl
  | cons a as ih =>
    intro y
    cases y with
    | nil => right; rfl
    | cons b bs =>
      rcases lt_trichotomy a b with h | h | h
      · left; simp only [charListLe, if_pos h]
      · subst h
        simp only [charListLe, if_neg (lt_irrefl a)]
        exact ih bs
      · right; simp only [charListLe, if_pos h]

theorem charListLe_trans :
    ∀ x y z, charListLe x y = true → charListLe y z = true → charListLe x z = true := by
  intro x
  induction x with
  | nil => intro y z h1 h2; rfl
  | cons a as ih =>
    intro y z h1 h2
    cases y with
    | nil => simp [charListLe] at h1
    | cons b bs =>
      cases z with
      | nil => simp [charListLe] at h2
      | cons c cs =>
        simp only [charListLe] at h1 h2 ⊢
        rcases lt_trichotomy a b with hab | hab | hab
        · rcases lt_trichotomy b c with hbc | hbc | hbc
          · rw [if_pos (lt_trans hab hbc)]
          · subst hbc; rw [if_pos hab]
          · rw [if_neg (asymm hbc), if_pos hbc] at h2
            exact absurd h2 (by simp)
        · subst hab
          rw [if_neg (lt_irrefl a), if_neg (lt_irrefl a)] at h1
          rcases lt_trichotomy a c with hac | hac | hac
          · rw [if_pos hac]
          · subst hac
            rw [if_neg (lt_irrefl a), if_neg (lt_irrefl a)] at h2 ⊢
            exact ih bs cs h1 h2
          · rw [if_neg (asymm hac), if_pos hac] at h2
            exact absurd h2 (by simp)
        · rw [if_neg (asymm hab), if_pos hab] at h1
          exact absurd h1 (by simp)

theorem listLe_trans (a b c : Artifact)
    (h1 : SQLite.listLe a b = true) (h2 : SQLite.listLe b c = true) :
    SQLite.listLe a c = true := by
  simp only [SQLite.listLe, strLe] at h1 h2 ⊢
  by_cases pa : (a.priority == Priority.core) = true <;>
    by_cases pb : (b.priority == Priority.core) = true <;>
    by_cases pc : (c.priority == Priority.core) = true <;>
    simp_all <;>
    exact charListLe_trans _ _ _ h2 h1

theorem listLe_total (a b : Artifact) :
    SQLite.listLe a b = true ∨ SQLite.listLe b a = true := by
  simp only [SQLite.listLe, strLe]
  by_cases pa : (a.priority == Priority.core) = true <;>
    by_cases pb : (b.priority == Priority.core) = true <;>
    simp_all <;>
    exact charListLe_total _ _

theorem updatedDescLe_trans (a b c : Supabase.ArtifactRow)
    (h1 : Supabase.updatedDescLe a b = true) (h2 : Supabase.updatedDescLe b c = true) :
    Supabase.updatedDescLe a c = true := by
  simp only [Supabase.updatedDescLe, strLe] at h1 h2 ⊢
  exact charListLe_trans _ _ _ h2 h1

theorem updatedDescLe_total (a b : Supabase.ArtifactRow) :
    Supabase.updatedDescLe a b = true ∨ Supabase.updatedDescLe b a = true := by
  simp only [Supabase.updatedDescLe, strLe]
  exact charListLe_total _ _

theorem mem_insertBy {α : Type} (le : α → α → Bool) (x a : α) (l : List α) :
    a ∈ insertBy le x l ↔ a = x ∨ a ∈ l := by
  induction l with
  | nil => simp [insertBy]
  | cons y ys ih =>
    by_cases h : le x y
    · simp [insertBy, h]
    · simp [insertBy, h, ih]
      tauto

theorem mem_sortBy {α : Type} (le : α → α → Bool) (a : α) (l : List α) :
    a ∈ sortBy le l ↔ a ∈ l := by
  induction l with
  | nil => simp [sortBy]
  | cons x xs ih => simp [sortBy, mem_insertBy, ih]

theorem pairwise_insertBy {α : Type} (le : α → α → Bool)
    (htr : ∀ a b c, le a b = true → le b c = true → le a c = true)
    (hto : ∀ a b, le a b = true ∨ le b a = true)
    (x : α) (l : List α) (h : l.Pairwise (fun a b => le a b = true)) :
    (insertBy le x l).Pairwise (fun a b => le a b = true) := by
  induction l with
  | nil => simp [insertBy]
  | cons y ys ih =>
    rw [List.pairwise_cons] at h
    obtain ⟨hy, hys⟩ := h
    by_cases hxy : le x y = true
    · have he : insertBy le x (y :: ys) = x :: y :: ys := by simp [insertBy, hxy]
      rw [he]
      refine List.Pairwise.cons ?_ (List.Pairwise.cons hy hys)
      intro z hz
      rcases List.mem_cons.mp hz with hz | hz
      · subst hz; exact hxy
      · exact htr x y z hxy (hy z hz)
    · have he : insertBy le x (y :: ys) = y :: insertBy le x ys := by simp [insertBy, hxy]
      rw [he]
      refine List.Pairwise.cons ?_ (ih hys)
      intro z hz
      rcases (mem_insertBy le x z ys).mp hz with hz | hz
      · rw [hz]
        rcases hto x y with h | h
        · exact absurd h hxy
        · exact h
      · exact hy z hz

theorem pairwise_sortBy {α : Type} (le : α → α → Bool)
    (htr : ∀ a b c, le a b = true → le b c = true → le a c = true)
    (hto : ∀ a b, le a b = true ∨ le b a = true) (l : List α) :
    (sortBy le l).Pairwise (fun a b => le a b = true) := by
  induction l with
  | nil => simp [sortBy]
  | cons x xs ih => exact pairwise_insertBy le htr hto x (sortBy le xs) ih

theorem insertBy_all_false {α : Type} (le : α → α → Bool) (x : α) (l : List α)
    (h : ∀ y ∈ l, le x y = false) : insertBy le x l = l ++ [x] := by
  induction l with
  | nil => simp [insertBy]
  | cons y ys ih =>
    have hy := h y (List.mem_cons_self y ys)
    have he : insertBy le x (y :: ys) = y :: insertBy le x ys := by simp [insertBy, hy]
    rw [he, ih (fun z hz => h z (List.mem_cons_of_mem y hz))]
    simp

theorem sortBy_reverse_of_strict {α : Type} (le : α → α → Bool) (l : List α)
    (h : l.Pairwise (fun a b => le a b = false)) :
    sortBy le l = l.reverse := by
  induction l with
  | nil => simp [sortBy]
  | cons x xs ih =>
    rw [List.pairwise_cons] at h
    obtain ⟨hx, hxs⟩ := h
    rw [sortBy, ih hxs, insertBy_all_false le x xs.reverse
      (fun y hy => hx y (List.mem_reverse.mp hy)), List.reverse_cons]


theorem stepArt_id (a : Artifact) (c ts : String) : (stepArt a c ts).id = a.id := rfl

theorem update_content_step (a : Artifact) (vs : List ArtifactVersion)
    (id c vid ts : String) (ha : a.id = id) :
    SQLite.update ⟨[a], vs⟩ id (contentPatch c) vid ts =
      (⟨[stepArt a c ts], vs ++ [SQLite.snapRow vid a ChangeSource.update]⟩,
        Except.ok (stepArt a c ts)) := by
  have hg : SQLite.getArtifact ⟨[a], vs⟩ id = some a := by
    simp [SQLite.getArtifact, ha]
  unfold SQLite.update
  rw [hg]
  have hne : (contentPatch c).isEmpty = false := rfl
  simp only [hne, Bool.false_eq_true, if_false, ite_false]
  have happ : SQLite.applyUpdate a (contentPatch c) ts = stepArt a c ts := rfl
  simp [SQLite.saveVersion, SQLite.getArtifact, ha, happ, stepArt]

theorem runUpdates_spec (id : String) :
    ∀ (L : List (String × String × String)) (a : Artifact) (vs : List ArtifactVersion),
      a.id = id →
      runUpdates ⟨[a], vs⟩ id L = some ⟨[finalArt a L], vs ++ expRows a L⟩ := by
  intro L
  induction L with
  | nil => intro a vs ha; simp [runUpdates, finalArt, expRows]
  | cons t rest ih =>
    obtain ⟨c, vid, ts⟩ := t
    intro a vs ha
    rw [runUpdates, update_content_step a vs id c vid ts ha]
    dsimp only
    rw [ih (stepArt a c ts) (vs ++ [SQLite.snapRow vid a ChangeSource.update]) (by rw [stepArt_id, ha])]
    simp [finalArt, expRows, stepArt]

theorem finalArt_version (L : List (String × String × String)) :
    ∀ a, (finalArt a L).version = a.version + L.length := by
  induction L with
  | nil => intro a; simp [finalArt]
  | cons t rest ih =>
    obtain ⟨c, vid, ts⟩ := t
    intro a
    rw [finalArt, ih, stepArt]
    simp
    omega

theorem finalArt_id (L : List (String × String × String)) :
    ∀ a, (finalArt a L).id = a.id := by
  induction L with
  | nil => intro a; rfl
  | cons t rest ih =>
    obtain ⟨c, vid, ts⟩ := t
    intro a
    rw [finalArt, ih, stepArt_id]

theorem expRows_artifact_id (L : List (String × String × String)) :
    ∀ a, ∀ r ∈ expRows a L, r.artifact_id = a.id := by
  induction L with
  | nil => intro a r hr; simp [expRows] at hr
  | cons t rest ih =>
    obtain ⟨c, vid, ts⟩ := t
    intro a r hr
    rw [expRows] at hr
    rcases List.mem_cons.mp hr with hr | hr
    · rw [hr]; rfl
    · rw [ih (stepArt a c ts) r hr, stepArt_id]

theorem expRows_change_source (L : List (String × String × String)) :
    ∀ a, ∀ r ∈ expRows a L, r.change_source = ChangeSource.update := by
  induction L with
  | nil => intro a r hr; simp [expRows] at hr
  | cons t rest ih =>
    obtain ⟨c, vid, ts⟩ := t
    intro a r hr
    rw [expRows] at hr
    rcases List.mem_cons.mp hr with hr | hr
    · rw [hr]; rfl
    · exact ih (stepArt a c ts) r hr

theorem expRows_version_map (L : List (String × String × String)) :
    ∀ a, (expRows a L).map (fun r => r.version) = List.range' a.version L.length := by
  induction L with
  | nil => intro a; simp [expRows, List.range']
  | cons t rest ih =>
    obtain ⟨c, vid, ts⟩ := t
    intro a
    rw [expRows, List.map_cons, ih]
    simp [SQLite.snapRow, stepArt, List.range']

theorem expRows_length (L : List (String × String × String)) (a : Artifact) :
    (expRows a L).length = L.length := by
  have := congrArg List.length (expRows_version_map L a)
  simpa using this

theorem expRows_content_map (L : List (String × String × String)) :
    ∀ a, (expRows a L).map (fun r => r.content) =
      (a.content :: L.map (fun t => t.1)).take L.length := by
  induction L with
  | nil => intro a; simp [expRows]
  | cons t rest ih =>
    obtain ⟨c, vid, ts⟩ := t
    intro a
    rw [expRows, List.map_cons, ih]
    simp [SQLite.snapRow, stepArt]

theorem expRows_version_lb (L : List (String × String × String)) :
    ∀ a, ∀ r ∈ expRows a L, a.version ≤ r.version := by
  induction L with
  | nil => intro a r hr; simp [expRows] at hr
  | cons t rest ih =>
    obtain ⟨c, vid, ts⟩ := t
    intro a r hr
    rw [expRows] at hr
    rcases List.mem_cons.mp hr with hr | hr
    · rw [hr]; exact le_refl _
    · have := ih (stepArt a c ts) r hr
      simp only [stepArt] at this
      omega

theorem expRows_pairwise_desc_false (L : List (String × String × String)) :
    ∀ a, (expRows a L).Pairwise (fun r s => SQLite.versionDescLe r s = false) := by
  induction L with
  | nil => intro a; simp [expRows]
  | cons t rest ih =>
    obtain ⟨c, vid, ts⟩ := t
    intro a
    rw [expRows]
    refine List.Pairwise.cons ?_ (ih (stepArt a c ts))
    intro s hs
    have hlb := expRows_version_lb rest (stepArt a c ts) s hs
    simp only [stepArt] at hlb
    simp only [SQLite.versionDescLe, SQLite.snapRow, decide_eq_false_iff_not]
    omega

/-! ## Claims -/

/-- C10: chunkContent decides whether to split using needsChunking with the
fixed default safe limit (3500 JSON-serialized units), ignoring its
chunkSize argument; every content of JSON size at most 3500 comes back as
one part equal to the original content, for every requested chunkSize. -/
theorem chunkContent_threshold_only (content : List Char) (chunkSize : Nat)
    (h : estimateJsonSize content ≤ MCP_SAFE_SIZE) :
    chunkContent content chunkSize =
      some ⟨[content], content.length, 1, md5Hex content⟩ := by
  have hn : needsChunking content MCP_SAFE_SIZE = false := by
    simp [needsChunking]; omega
  simp [chunkContent, hn]

/-- Witness for C10: a 300-character content with JSON size 302 is returned
whole even though the requested chunk size is only 100. -/
theorem chunkContent_threshold_only_witness :
    chunkContent (List.replicate 300 'a') 100 =
      some ⟨[List.replicate 300 'a'], 300, 1, md5Hex (List.replicate 300 'a')⟩ ∧
      100 < (List.replicate 300 'a').length := by
  refine ⟨?_, by decide⟩
  have := chunkContent_threshold_only (List.replicate 300 'a') 100 (by decide)
  simpa using this

/-- C5 (amended): reassembly under a truthy (non-empty) supplied checksum
that differs from the MD5 of the joined parts always fails — with a
built-in Error carrying a checksum mismatch message (the code defines no
IntegrityError type) — and never returns content; an empty-string
checksum, like an absent one, skips verification entirely. -/
theorem reassemble_wrong_checksum_fails (chunks : List (List Char))
    (expected : List Char) (hne : expected ≠ [])
    (h : expected ≠ md5Hex chunks.flatten) :
    reassembleChunks chunks (some expected) =
      .error (.plainError (String.mk ("Checksum mismatch: expected ".toList ++
        expected ++ ", got ".toList ++ md5Hex chunks.flatten))) := by
  simp only [reassembleChunks]
  rw [if_pos hne, if_pos (Ne.symm h)]

/-- Witness for C5: a concrete non-empty mismatching checksum hits the
failure path. -/
theorem reassemble_wrong_checksum_fails_witness :
    reassembleChunks ["a".toList] (some "x".toList) =
      .error (.plainError (String.mk ("Checksum mismatch: expected ".toList ++
        "x".toList ++ ", got ".toList ++ md5Hex (["a".toList] : List (List Char)).flatten))) :=
  reassemble_wrong_checksum_fails ["a".toList] "x".toList (by decide) (by decide)

/-- Counterexample for C5 as stated: a supplied empty-string checksum
differs from the MD5 of the parts, yet reassembly returns the content
(the truthiness guard skips verification); and when verification does
fail, the error is a plain built-in Error, not an IntegrityError — no
IntegrityError class exists in the code. -/
theorem reassemble_integrity_counterexample :
    ("".toList : List Char) ≠ md5Hex (["a".toList] : List (List Char)).flatten ∧
      reassembleChunks ["a".toList] (some "".toList) = .ok "a".toList ∧
      resultErrIsIntegrity (reassembleChunks ["a".toList] (some "x".toList)) = false ∧
      exceptIsOk (reassembleChunks ["a".toList] (some "x".toList)) = false := by
  decide

/-- C1 (amended): on an update with zero changed fields, the SQLite backend
performs no version bump, leaves the artifacts table unchanged and returns
the existing artifact — but still appends one snapshot row to the version
history; the Supabase backend bumps the version counter by 1
unconditionally. -/
theorem update_no_diff_behaviour
    (dbS : SQLite.DB) (dbB : Supabase.DB)
    (idS idB userId vS tS vB sB tB : String)
    (existingS : Artifact) (rowB : Supabase.ArtifactRow) (projB : Supabase.ProjectRow)
    (hS : SQLite.getArtifact dbS idS = some existingS)
    (hrow : dbB.artifacts.find? (fun a => a.id == idB) = some rowB)
    (hproj : dbB.projects.find? (fun p => p.id == rowB.project_id) = some projB)
    (huser : projB.user_id = userId) :
    SQLite.update dbS idS emptyPatch vS tS =
      ({ dbS with versions := dbS.versions ++ [SQLite.snapRow vS existingS ChangeSource.update] },
        Except.ok existingS) ∧
      ∃ u, (Supabase.update dbB userId idB emptyPatch vB sB tB).2 = Except.ok u ∧
        u.version = rowB.version + 1 := by
  constructor
  · simp [SQLite.update, hS, SQLite.saveVersion, emptyPatch, ArtifactUpdate.isEmpty]
  · unfold Supabase.update Supabase.getArtifact
    simp only [hrow]
    simp only [hproj]
    simp only [huser, beq_self_eq_true, if_true]
    rw [supabase_find_map dbB.artifacts idB
      (Supabase.updateRow (Supabase.rowToArtifact rowB) emptyPatch tB) (fun a => rfl)]
    simp only [hrow]
    exact ⟨_, rfl, rfl⟩

/-- Witness for C1: the concrete one-artifact states exercise both halves. -/
theorem update_no_diff_behaviour_witness :
    SQLite.update cexSqliteDB "a1" emptyPatch "v1" "t1" =
      ({ cexSqliteDB with
          versions := cexSqliteDB.versions ++ [SQLite.snapRow "v1" cexArt ChangeSource.update] },
        Except.ok cexArt) ∧
      ∃ u, (Supabase.update cexSupabaseDB "u1" "a1" emptyPatch "v2" "s1" "t1").2 = Except.ok u ∧
        u.version = cexSbRow.version + 1 :=
  update_no_diff_behaviour cexSqliteDB cexSupabaseDB "a1" "a1" "u1" "v1" "t1" "v2" "s1" "t1"
    cexArt cexSbRow cexSbProj (by decide) (by decide) (by decide) (by decide)

/-- C3: for an artifact and a snapshot that belongs to it, rollback sets
title, content, summary and priority to the snapshot's stored values and
increments the version counter by exactly 1 relative to the pre-rollback
version, in both backends, however many operations happened in between
(the current state is arbitrary). -/
theorem rollback_restores_snapshot
    (dbS : SQLite.DB) (dbB : Supabase.DB)
    (idS vidS nvid ts userId idB vidB svid sts tb : String)
    (existingS : Artifact) (v : ArtifactVersion) (prioS : Priority)
    (rowB : Supabase.ArtifactRow) (projB : Supabase.ProjectRow)
    (vB : ArtifactVersion) (prioB : Priority)
    (hS : SQLite.getArtifact dbS idS = some existingS)
    (hv : SQLite.getVersion dbS vidS = some v)
    (hvb : v.artifact_id = idS)
    (hvp : v.priority = some prioS)
    (hBv : Supabase.getVersion dbB userId vidB = some vB)
    (hBvb : vB.artifact_id = idB)
    (hBvp : vB.priority = some prioB)
    (hrow : dbB.artifacts.find? (fun a => a.id == idB) = some rowB)
    (hproj : dbB.projects.find? (fun p => p.id == rowB.project_id) = some projB)
    (huser : projB.user_id = userId) :
    (∃ r, (SQLite.rollback dbS idS vidS nvid ts).2 = Except.ok r ∧
      r.title = v.title ∧ r.content = v.content ∧ r.summary = v.summary ∧
      r.priority = prioS ∧ r.version = existingS.version + 1) ∧
    (∃ r, (Supabase.rollback dbB userId idB vidB svid sts tb).2 = Except.ok r ∧
      r.title = vB.title ∧ r.content = vB.content ∧ r.summary = vB.summary ∧
      r.priority = prioB ∧ r.version = rowB.version + 1) := by
  constructor
  · unfold SQLite.rollback
    simp only [SQLite.getArtifact] at hS
    simp only [SQLite.getArtifact, SQLite.saveVersion, hS, hv, hvb, ne_eq,
      not_true_eq_false, if_false, ite_false]
    simp only [sqlite_find_map dbS.artifacts idS (SQLite.rollbackApply v existingS ts)
      (fun a => rfl)]
    simp only [hS]
    refine ⟨_, rfl, rfl, rfl, rfl, by simp [SQLite.rollbackApply, hvp], rfl⟩
  · unfold Supabase.rollback
    simp only [hBv]
    simp only [hBvb, ne_eq, not_true_eq_false, if_false, ite_false]
    unfold Supabase.getArtifact
    simp only [hrow]
    simp only [hproj]
    simp only [huser, beq_self_eq_true, if_true]
    rw [supabase_find_map dbB.artifacts idB
      (Supabase.rollbackRow vB (Supabase.rowToArtifact rowB) tb) (fun a => rfl)]
    simp only [hrow]
    refine ⟨_, rfl, rfl, rfl, rfl,
      by simp [Supabase.rollbackRow, Supabase.rowToArtifact, hBvp], rfl⟩

/-- Witness for C3: rollback of a version-3 artifact to its version-1
snapshot restores the snapshot fields and moves the counter to 4, in both
backends. -/
theorem rollback_restores_snapshot_witness :
    (∃ r, (SQLite.rollback rollbackSqliteDB "a1" "v1" "v2" "t9").2 = Except.ok r ∧
      r.title = cexSqliteSnapshot.title ∧ r.content = cexSqliteSnapshot.content ∧
      r.summary = cexSqliteSnapshot.summary ∧ r.priority = Priority.normal ∧
      r.version = rollbackArt.version + 1) ∧
    (∃ r, (Supabase.rollback rollbackSupabaseDB "u1" "a1" "v1" "v2" "s9" "t9").2 = Except.ok r ∧
      r.title = cexSqliteSnapshot.title ∧ r.content = cexSqliteSnapshot.content ∧
      r.summary = cexSqliteSnapshot.summary ∧ r.priority = Priority.normal ∧
      r.version = rollbackSbRow.version + 1) :=
  rollback_restores_snapshot rollbackSqliteDB rollbackSupabaseDB
    "a1" "v1" "v2" "t9" "u1" "a1" "v1" "v2" "s9" "t9"
    rollbackArt cexSqliteSnapshot Priority.normal
    rollbackSbRow cexSbProj cexSqliteSnapshot Priority.normal
    (by decide) (by decide) (by decide) (by decide) (by decide) (by decide)
    (by decide) (by decide) (by decide) (by decide)

/-- C7 (amended): when the referenced version does not exist or belongs to a
different artifact, rollback fails and leaves the database state entirely
unchanged (no field mutation, no version bump, no snapshot row) in both
backends; the SQLite backend fails with a typed NotFoundError, while the
Supabase backend fails with a plain built-in Error. -/
theorem rollback_bad_version_unchanged
    (dbS : SQLite.DB) (dbB : Supabase.DB)
    (idS vidS nvid ts userId idB vidB svid sts tb : String)
    (existingS : Artifact)
    (hS : SQLite.getArtifact dbS idS = some existingS)
    (hSbad : ∀ v, SQLite.getVersion dbS vidS = some v → v.artifact_id ≠ idS)
    (hBbad : ∀ v, Supabase.getVersion dbB userId vidB = some v → v.artifact_id ≠ idB) :
    SQLite.rollback dbS idS vidS nvid ts = (dbS, .error (.notFoundError "Version" vidS)) ∧
      (Supabase.rollback dbB userId idB vidB svid sts tb).1 = dbB ∧
      ∃ m, (Supabase.rollback dbB userId idB vidB svid sts tb).2 = .error (.plainError m) := by
  refine ⟨?_, ?_⟩
  · cases hv : SQLite.getVersion dbS vidS with
    | none => simp [SQLite.rollback, hS, hv]
    | some v =>
      have hne := hSbad v hv
      simp [SQLite.rollback, hS, hv, hne]
  · cases hv : Supabase.getVersion dbB userId vidB with
    | none =>
      exact ⟨by simp [Supabase.rollback, hv],
        ⟨"Version not found: " ++ vidB, by simp [Supabase.rollback, hv]⟩⟩
    | some v =>
      have hne := hBbad v hv
      exact ⟨by simp [Supabase.rollback, hv, hne],
        ⟨"Version " ++ vidB ++ " does not belong to artifact " ++ idB,
          by simp [Supabase.rollback, hv, hne]⟩⟩

/-- Witness for C7: rolling artifact a1 back to a version row that belongs
to artifact a2 fails and changes nothing, in both backends. -/
theorem rollback_bad_version_unchanged_witness :
    SQLite.rollback cexSqliteDB7 "a1" "v9" "v2" "t9" =
      (cexSqliteDB7, .error (.notFoundError "Version" "v9")) ∧
      (Supabase.rollback cexSupabaseDB7 "u1" "a1" "v9" "v2" "s9" "t9").1 = cexSupabaseDB7 ∧
      ∃ m, (Supabase.rollback cexSupabaseDB7 "u1" "a1" "v9" "v2" "s9" "t9").2 =
        .error (.plainError m) :=
  rollback_bad_version_unchanged cexSqliteDB7 cexSupabaseDB7
    "a1" "v9" "v2" "t9" "u1" "a1" "v9" "v2" "s9" "t9" cexArt
    (by decide)
    (by
      intro v hv
      rw [(by decide : SQLite.getVersion cexSqliteDB7 "v9" = some cexSqliteVersionOther)] at hv
      injection hv with h
      subst h
      decide)
    (by
      intro v hv
      rw [(by decide : Supabase.getVersion cexSupabaseDB7 "u1" "v9" =
        some cexSqliteVersionOther)] at hv
      injection hv with h
      subst h
      decide)

/-- Counterexample for C7 as stated: the Supabase failure on a version that
belongs to a different artifact is a plain Error, not a typed NotFound
error. -/
theorem rollback_notfound_counterexample :
    (Supabase.rollback cexSupabaseDB7 "u1" "a1" "v9" "v2" "s9" "t9").2 =
      .error (.plainError "Version v9 does not belong to artifact a1") ∧
      errIsNotFound (.plainError "Version v9 does not belong to artifact a1") = false := by
  decide

/-- C6: for all content whose JSON-serialized size exceeds the chunk
threshold, concatenating the parts produced by chunkContent reproduces the
original content exactly (no characters dropped or duplicated at any split
point), and reassembling those parts under the produced checksum returns
the original content, for every positive target chunk size. -/
theorem chunk_roundtrip (content : List Char) (chunkSize : Nat)
    (h : needsChunking content MCP_SAFE_SIZE = true) (hcs : 1 ≤ chunkSize) :
    ∃ r, chunkContent content chunkSize = some r ∧
      r.chunks.flatten = content ∧
      reassembleChunks r.chunks (some r.checksum) = Except.ok content := by
  have hs := chunkLoop_isSome chunkSize hcs (content.length + 1) content (by omega)
  obtain ⟨out, hout⟩ := Option.isSome_iff_exists.mp hs
  have hj := chunkLoop_join chunkSize (content.length + 1) content out hout
  refine ⟨⟨out, content.length, out.length, md5Hex content⟩, ?_, by simpa using hj, ?_⟩
  · simp [chunkContent, h, hout]
  · simp [reassembleChunks, hj, md5Hex_ne_nil]

/-- Witness for C6: a 600-character content of JSON-serialized size 3602
chunks and reassembles back to itself. -/
theorem chunk_roundtrip_witness :
    ∃ r, chunkContent (List.replicate 600 (Char.ofNat 1)) 3000 = some r ∧
      r.chunks.flatten = List.replicate 600 (Char.ofNat 1) ∧
      reassembleChunks r.chunks (some r.checksum) =
        Except.ok (List.replicate 600 (Char.ofNat 1)) :=
  chunk_roundtrip (List.replicate 600 (Char.ofNat 1)) 3000 (by decide) (by omega)


/-- C8: for content with no natural break points (no paragraph break, no
line break, no sentence punctuation followed by a space) that needs
chunking, the loop terminates and degrades to hard cuts at exactly the
target chunk size, dropping no trailing content. -/
theorem chunk_no_breaks_hard_cuts (content : List Char) (cs : Nat)
    (hb : noNaturalBreaks content = true)
    (hn : needsChunking content MCP_SAFE_SIZE = true)
    (hcs : 1 ≤ cs) :
    chunkContent content cs =
      some ⟨hardChunks cs content, content.length, (hardChunks cs content).length,
        md5Hex content⟩ ∧
      (hardChunks cs content).flatten = content := by
  have hbf := noNaturalBreaks_breakFree content hb
  have h1 := chunkLoop_hard cs hcs (content.length + 1) content (by omega) hbf
  exact ⟨by simp [chunkContent, hn, h1], hardChunks_flatten cs content⟩

/-- Witness for C8: 7000 characters with no break points at target 3000
produce exactly 3 parts whose concatenation is the original content. -/
theorem chunk_no_breaks_hard_cuts_witness :
    ∃ r, chunkContent (List.replicate 7000 'a') 3000 = some r ∧
      r.chunkCount = 3 ∧ r.chunks.flatten = List.replicate 7000 'a' := by
  have h := chunk_no_breaks_hard_cuts (List.replicate 7000 'a') 3000
    (noNaturalBreaks_replicate_a 7000) (needsChunking_replicate_a 7000 (by omega)) (by omega)
  refine ⟨_, h.1, ?_, h.2⟩
  show (hardChunks 3000 (List.replicate 7000 'a')).length = 3
  rw [hardChunks_length 3000 (by omega), List.length_replicate]

/-- C4 (amended): the default listing excludes archived artifacts in both
backends; the SQLite backend orders active listings with core priority
first and then by update recency descending, while the Supabase backend
orders by update recency only — the two orderings are not identical. -/
theorem list_ordering_behaviour
    (dbS : SQLite.DB) (dbB : Supabase.DB) (pid userId : String)
    (opts : ArtifactListOptions)
    (harch : opts.includeArchived.getD false = false)
    (out : List ArtifactSummary)
    (hout : Supabase.list dbB userId pid opts = Except.ok out) :
    (∀ s ∈ SQLite.list dbS pid opts, s.archived_at = none) ∧
    (SQLite.list dbS pid opts).Pairwise (fun a b => summaryListLe a b = true) ∧
    (∀ s ∈ out, s.archived_at = none) ∧
    out.Pairwise (fun a b => summaryUpdatedLe a b = true) := by
  refine ⟨?_, ?_, ?_, ?_⟩
  · intro s hs
    simp only [SQLite.list, harch, Bool.false_or] at hs
    obtain ⟨a, ha, rfl⟩ := List.mem_map.mp hs
    have ha2 := List.take_subset _ _ (by exact ha)
    have ha3 := List.drop_subset _ _ ha2
    have ha4 := (mem_sortBy _ _ _).mp ha3
    have := (List.mem_filter.mp ha4).2
    simp only [Bool.and_eq_true] at this
    have harchived : a.archived_at.isNone = true := this.1.1.2
    simp only [SQLite.rowToSummary]
    exact Option.isNone_iff_eq_none.mp harchived
  · simp only [SQLite.list]
    rw [List.pairwise_map]
    refine List.Pairwise.sublist ((List.take_sublist _ _).trans (List.drop_sublist _ _)) ?_
    exact (pairwise_sortBy SQLite.listLe listLe_trans listLe_total _).imp (fun h => h)
  · intro s hs
    simp only [Supabase.list] at hout
    rcases hfind : dbB.projects.find? (fun p => p.id == pid && p.user_id == userId) with _ | proj
    · rw [hfind] at hout; exact absurd hout (by simp)
    · rw [hfind] at hout
      simp only [Except.ok.injEq] at hout
      subst hout
      simp only [harch, Bool.false_or] at hs
      obtain ⟨a, ha, rfl⟩ := List.mem_map.mp hs
      have ha2 := List.take_subset _ _ (by exact ha)
      have ha3 := List.drop_subset _ _ ha2
      have ha4 := (mem_sortBy _ _ _).mp ha3
      have := (List.mem_filter.mp ha4).2
      simp only [Bool.and_eq_true] at this
      have harchived : a.archived_at.isNone = true := this.1.1.2
      simp only [Supabase.rowToSummary]
      exact Option.isNone_iff_eq_none.mp harchived
  · simp only [Supabase.list] at hout
    rcases hfind : dbB.projects.find? (fun p => p.id == pid && p.user_id == userId) with _ | proj
    · rw [hfind] at hout; exact absurd hout (by simp)
    · rw [hfind] at hout
      simp only [Except.ok.injEq] at hout
      subst hout
      rw [List.pairwise_map]
      refine List.Pairwise.sublist ((List.take_sublist _ _).trans (List.drop_sublist _ _)) ?_
      exact (pairwise_sortBy Supabase.updatedDescLe updatedDescLe_trans
        updatedDescLe_total _).imp (fun h => h)

/-- Counterexample for C4 as stated: on the same two artifacts (one core
but older, one normal but newer) the SQLite backend lists the core one
first while the Supabase backend lists the newer one first. -/
theorem list_ordering_counterexample :
    SQLite.list listSqliteDB "p1" defaultListOptions =
      [SQLite.rowToSummary artCoreOld, SQLite.rowToSummary artNormalNew] ∧
    Supabase.list listSupabaseDB "u1" "p1" defaultListOptions =
      Except.ok [Supabase.rowToSummary sbRowNormalNew, Supabase.rowToSummary sbRowCoreOld] ∧
    (SQLite.rowToSummary artCoreOld).id = "a1" ∧
    (Supabase.rowToSummary sbRowNormalNew).id = "a2" ∧
    ("a1" : String) ≠ "a2" := by
  decide

/-- Witness for C4: the concrete two-artifact stores satisfy the amended
ordering statements. -/
theorem list_ordering_behaviour_witness :
    (∀ s ∈ SQLite.list listSqliteDB "p1" defaultListOptions, s.archived_at = none) ∧
    (SQLite.list listSqliteDB "p1" defaultListOptions).Pairwise
      (fun a b => summaryListLe a b = true) ∧
    (∀ s ∈ [Supabase.rowToSummary sbRowNormalNew, Supabase.rowToSummary sbRowCoreOld],
      s.archived_at = none) ∧
    ([Supabase.rowToSummary sbRowNormalNew, Supabase.rowToSummary sbRowCoreOld]).Pairwise
      (fun a b => summaryUpdatedLe a b = true) :=
  list_ordering_behaviour listSqliteDB listSupabaseDB "p1" "u1" defaultListOptions
    (by decide) _ (by decide)

/-- C2: for an artifact created at version 1, after N successful updates
with (pairwise-distinct) contents, the version history holds exactly N
rows with version numbers 1..N, each recording the pre-update content with
change-source update; getVersions (with a limit of at least N) returns
exactly those N entries, and the artifact's current version is N + 1. -/
theorem update_history_versions
    (a : Artifact) (L : List (String × String × String)) (limit : Nat)
    (ha1 : a.version = 1)
    (hlim : L.length ≤ limit)
    (_hdist : List.Chain' (fun x y => x ≠ y) (a.content :: L.map (fun t => t.1))) :
    ∃ dbf, runUpdates ⟨[a], []⟩ a.id L = some dbf ∧
      (∃ fa, dbf.artifacts = [fa] ∧ fa.version = L.length + 1) ∧
      dbf.versions.map (fun r => r.version) = List.range' 1 L.length ∧
      dbf.versions.map (fun r => r.content) =
        (a.content :: L.map (fun t => t.1)).take L.length ∧
      (∀ r ∈ dbf.versions, r.change_source = ChangeSource.update) ∧
      ∃ out, SQLite.getVersions dbf a.id limit = Except.ok out ∧
        out.length = L.length ∧
        (out.map (fun r => r.version)).reverse = List.range' 1 L.length ∧
        ∀ r ∈ out, r.change_source = ChangeSource.update := by
  have hrun := runUpdates_spec a.id L a [] rfl
  refine ⟨_, hrun, ⟨finalArt a L, rfl, by rw [finalArt_version, ha1]; omega⟩, ?_, ?_, ?_, ?_⟩
  · show (expRows a L).map (fun r => r.version) = List.range' 1 L.length
    rw [expRows_version_map, ha1]
  · exact expRows_content_map L a
  · exact expRows_change_source L a
  · have hget : SQLite.getArtifact ⟨[finalArt a L], expRows a L⟩ a.id = some (finalArt a L) := by
      simp [SQLite.getArtifact, finalArt_id]
    have hfilter : (expRows a L).filter (fun r => r.artifact_id == a.id) = expRows a L := by
      rw [List.filter_eq_self]
      intro r hr
      simp [expRows_artifact_id L a r hr]
    have hsort : sortBy SQLite.versionDescLe (expRows a L) = (expRows a L).reverse :=
      sortBy_reverse_of_strict _ _ (expRows_pairwise_desc_false L a)
    have htake : ((expRows a L).reverse).take limit = (expRows a L).reverse := by
      apply List.take_of_length_le
      rw [List.length_reverse, expRows_length]
      exact hlim
    refine ⟨(expRows a L).reverse.map SQLite.rowToVersionSummary, ?_, ?_, ?_, ?_⟩
    · unfold SQLite.getVersions
      simp only [List.nil_append]
      rw [hget]
      dsimp only
      rw [hfilter, hsort, htake]
    · simp [expRows_length]
    · have hcomp : ((fun (r : ArtifactVersionSummary) => r.version) ∘ SQLite.rowToVersionSummary) =
          (fun (r : ArtifactVersion) => r.version) := rfl
      rw [List.map_map, hcomp, List.map_reverse, List.reverse_reverse,
        expRows_version_map, ha1]
    · intro r hr
      rw [List.mem_map] at hr
      obtain ⟨v, hv, rfl⟩ := hr
      have := expRows_change_source L a v (List.mem_reverse.mp hv)
      simpa [SQLite.rowToVersionSummary] using this

/-- Witness for C2: two successful updates on a fresh artifact leave
snapshots for versions 1 and 2 with the pre-update contents and a current
version of 3. -/
theorem update_history_versions_witness :
    ∃ dbf, runUpdates ⟨[cexArt], []⟩ cexArt.id
        [("c1", "v1", "t1"), ("c2", "v2", "t2")] = some dbf ∧
      (∃ fa, dbf.artifacts = [fa] ∧ fa.version = 3) ∧
      dbf.versions.map (fun r => r.version) = [1, 2] ∧
      dbf.versions.map (fun r => r.content) = ["c0", "c1"] ∧
      (∀ r ∈ dbf.versions, r.change_source = ChangeSource.update) ∧
      ∃ out, SQLite.getVersions dbf cexArt.id 10 = Except.ok out ∧
        out.length = 2 ∧
        (out.map (fun r => r.version)).reverse = [1, 2] ∧
        ∀ r ∈ out, r.change_source = ChangeSource.update := by
  have h := update_history_versions cexArt [("c1", "v1", "t1"), ("c2", "v2", "t2")] 10
    (by decide) (by decide) (by simp [List.chain'_cons, cexArt])
  simpa [List.range'] using h

/-- C9 (amended): snippet extraction — with a non-empty summary the snippet
is the summary's first 200 characters; with no usable summary and no
case-insensitive occurrence of the query, the snippet is the first 200
characters of the content followed by an ellipsis when the content is
longer than 200 characters; with a first occurrence at index m, the
snippet is the window from 50 characters before the match to 150
characters after its end, with ellipses marking truncation on either
side. -/
theorem extractSnippet_behaviour (content query : List Char) (summary : Option (List Char)) :
    (∀ s, summary = some s → 0 < s.length →
      extractSnippet content query summary = s.take 200) ∧
    ((summary = none ∨ summary = some []) →
      firstIndexOf (jsToLower query) (jsToLower content) = none →
      extractSnippet content query summary =
        content.take 200 ++ (if 200 < content.length then ellipsis else [])) ∧
    ((summary = none ∨ summary = some []) →
      ∀ m, firstIndexOf (jsToLower query) (jsToLower content) = some m →
      extractSnippet content query summary =
        (if 50 < m then ellipsis else []) ++
          ((content.take (min content.length (m + query.length + 150))).drop (m - 50)) ++
          (if min content.length (m + query.length + 150) < content.length then ellipsis
           else [])) := by
  refine ⟨?_, ?_, ?_⟩
  · intro s hs hlen
    subst hs
    simp [extractSnippet, hlen]
  · intro hsum hnone
    have hbody : extractSnippet content query summary = extractSnippetBody content query := by
      rcases hsum with h | h <;> subst h <;> simp [extractSnippet]
    rw [hbody]
    simp only [extractSnippetBody, jsIndexOf, hnone]
    simp
  · intro hsum m hm
    have hbody : extractSnippet content query summary = extractSnippetBody content query := by
      rcases hsum with h | h <;> subst h <;> simp [extractSnippet]
    rw [hbody]
    simp only [extractSnippetBody, jsIndexOf, hm]
    rw [if_neg (by omega : ¬ ((m : Int) = -1))]
    have hstart : (max 0 ((m : Int) - 50)).toNat = m - 50 := by omega
    have hend : (min (content.length : Int) ((m : Int) + (query.length : Int) + 150)).toNat =
        min content.length (m + query.length + 150) := by omega
    have hc1 : (max 0 ((m : Int) - 50) > 0) = (50 < m) := by
      apply propext
      omega
    have hc2 : (min (content.length : Int) ((m : Int) + (query.length : Int) + 150) <
        (content.length : Int)) =
        (min content.length (m + query.length + 150) < content.length) := by
      apply propext
      omega
    rw [hstart, hend]
    simp only [hc1, hc2]
    split_ifs <;> simp

/-- Counterexample for C9 as stated: with no summary and no occurrence, the
snippet on a 201-character content is the first 200 characters plus an
ellipsis, not the first 200 characters. -/
theorem snippet_no_match_counterexample :
    extractSnippet (List.replicate 201 'a') ("zz".toList) none =
      List.replicate 200 'a' ++ ellipsis ∧
    List.replicate 200 'a' ++ ellipsis ≠ (List.replicate 201 'a').take 200 := by
  constructor
  · decide
  · decide

/-- Witness for C9: a match at index 60 in a 266-character content yields
the windowed snippet with ellipses on both sides. -/
theorem extractSnippet_behaviour_witness :
    extractSnippet (List.replicate 60 'a' ++ "needle".toList ++ List.replicate 200 'b')
        ("NEEDLE".toList) none =
      (if 50 < 60 then ellipsis else []) ++
        (((List.replicate 60 'a' ++ "needle".toList ++ List.replicate 200 'b').take
          (min (List.replicate 60 'a' ++ "needle".toList ++ List.replicate 200 'b').length
            (60 + ("NEEDLE".toList).length + 150))).drop (60 - 50)) ++
        (if min (List.replicate 60 'a' ++ "needle".toList ++ List.replicate 200 'b').length
            (60 + ("NEEDLE".toList).length + 150) <
            (List.replicate 60 'a' ++ "needle".toList ++ List.replicate 200 'b').length
         then ellipsis else []) :=
  (extractSnippet_behaviour (List.replicate 60 'a' ++ "needle".toList ++ List.replicate 200 'b')
    ("NEEDLE".toList) none).2.2 (Or.inl rfl) 60 (by decide)

/-- Counterexample for C1 as stated: an update carrying zero changed fields
changes the SQLite version history (a snapshot row is written), and the
Supabase backend bumps the version counter. -/
theorem update_no_diff_counterexample :
    (SQLite.update cexSqliteDB "a1" emptyPatch "v1" "t1").1.versions.length = 1 ∧
      cexSqliteDB.versions.length = 0 ∧
      resultVersion (Supabase.update cexSupabaseDB "u1" "a1" emptyPatch "v2" "s1" "t1").2 = 2 ∧
      resultVersion (Except.ok (Supabase.rowToArtifact cexSbRow)) = 1 := by
  decide

end Contextable
